import Mathlib

/-!
Shallow embedding of the cannelloni-rust CAN-over-UDP bridge.

Bytes are modelled as `Nat` (wire bytes are always `< 256`); machine
integers are `Nat` with explicit `% 2^w` where the source relies on the
width.  The raw `libc` frame structs, the `socketcan` wrapper accessors,
the wire codec of `src/proto.rs` and the bridge loops of `src/udp.rs` and
`src/main.rs` are translated definition by definition.
-/

namespace Cannelloni

/-- `libc::can_frame`: a classic CAN 2.0 frame record.  `can_id` is a `u32`
carrying the EFF/RTR/ERR flag bits in its high bits, `can_dlc` a `u8`, and
`data` the fixed 8-byte payload array. -/
structure can_frame where
  can_id : Nat
  can_dlc : Nat
  data : List Nat
deriving DecidableEq

/-- `libc::canfd_frame`: a CAN FD frame record.  `len` is the payload
length (`u8`), `flags` the FD flags byte, `data` the fixed 64-byte array. -/
structure canfd_frame where
  can_id : Nat
  len : Nat
  flags : Nat
  data : List Nat
deriving DecidableEq

/-- `socketcan::CanAnyFrame`: `Normal` wraps `CanDataFrame`, `Remote` wraps
`CanRemoteFrame`, `Error` wraps `CanErrorFrame`, `Fd` wraps `CanFdFrame`. -/
inductive CanAnyFrame where
  | Normal (f : can_frame)
  | Remote (f : can_frame)
  | Error (f : can_frame)
  | Fd (f : canfd_frame)
deriving DecidableEq

/-- `CAN_ERR_FLAG` from `linux/can.h` (bit 29 of the id). -/
def CAN_ERR_FLAG : Nat := 0x20000000

/-- `CAN_RTR_FLAG` from `linux/can.h` (bit 30 of the id). -/
def CAN_RTR_FLAG : Nat := 0x40000000

/-- The `EmbeddedFrame::data()` accessor of the socketcan wrappers:
`CanDataFrame` and `CanErrorFrame` expose `data[..can_dlc]`,
`CanFdFrame` exposes `data[..len]`, and `CanRemoteFrame` exposes the
empty slice (a remote-transmission-request frame carries no data; its
`can_dlc` only states how many bytes are requested). -/
def dataBytes : CanAnyFrame → List Nat
  | .Normal f => f.data.take f.can_dlc
  | .Remote _ => []
  | .Error f => f.data.take f.can_dlc
  | .Fd f => f.data.take f.len

/-- `proto::encoded_size` (proto.rs:42-49): `4 + 1 + frame.data().len()`
for the three classic variants, `4 + 1 + 1 + frame.data().len()` for FD. -/
def encoded_size : CanAnyFrame → Nat
  | .Normal f => 4 + 1 + (dataBytes (.Normal f)).length
  | .Remote f => 4 + 1 + (dataBytes (.Remote f)).length
  | .Error f => 4 + 1 + (dataBytes (.Error f)).length
  | .Fd f => 4 + 1 + 1 + (dataBytes (.Fd f)).length

/-- `proto::CANFD_FRAME_MARKER` (proto.rs:51). -/
def CANFD_FRAME_MARKER : Nat := 0x80

/-- `proto::IMPLEMENTED_VERSION` (proto.rs:27). -/
def IMPLEMENTED_VERSION : Nat := 2

/-- `OpCode::Data as u8` (proto.rs:31). -/
def OpCodeData : Nat := 0

/-- `BufMut::put_u32` big-endian byte split of a `u32` value. -/
def be32 (n : Nat) : List Nat :=
  [n / 2 ^ 24 % 256, n / 2 ^ 16 % 256, n / 2 ^ 8 % 256, n % 256]

/-- `BufMut::put_u16` big-endian byte split of a `u16` value. -/
def be16 (n : Nat) : List Nat := [n / 2 ^ 8 % 256, n % 256]

/-- `u32::from_be_bytes` on a 4-byte list (`u16::from_be_bytes` on 2). -/
def ofBe (b : List Nat) : Nat := b.foldl (fun a x => a * 256 + x) 0

/-- `MessageSerializer::serialize_2_0_frame` (proto.rs:85-90): the bytes
appended for a classic frame: `put_u32(can_id)`, `put_u8(can_dlc)`,
`put_slice(&data[..can_dlc])`. -/
def serialize_2_0_frame (f : can_frame) : List Nat :=
  be32 (f.can_id % 2 ^ 32) ++ [f.can_dlc % 256] ++ f.data.take f.can_dlc

/-- `MessageSerializer::serialize_fd_frame` (proto.rs:92-98): the bytes
appended for an FD frame: `put_u32(can_id)`, `put_u8(len | CANFD_FRAME_MARKER)`,
`put_u8(flags)`, `put_slice(&data[..len])`. -/
def serialize_fd_frame (f : canfd_frame) : List Nat :=
  be32 (f.can_id % 2 ^ 32) ++ [f.len % 256 ||| CANFD_FRAME_MARKER] ++
    [f.flags % 256] ++ f.data.take f.len

/-- The bytes `MessageSerializer::push_frame` (proto.rs:100-108) appends
for one frame: the three classic variants go through
`serialize_2_0_frame`, FD through `serialize_fd_frame`. -/
def pushBytes : CanAnyFrame → List Nat
  | .Normal f => serialize_2_0_frame f
  | .Remote f => serialize_2_0_frame f
  | .Error f => serialize_2_0_frame f
  | .Fd f => serialize_fd_frame f

/-- `proto::MessageSerializer` state (proto.rs:36-40): wrapping `u8`
sequence number, the batch byte buffer, and the `u16` frame count. -/
structure MessageSerializer where
  sequence_number : Nat
  frames : List Nat
  count : Nat
deriving DecidableEq

/-- `MessageSerializer::write_header` (proto.rs:110-117): appends version,
opcode, the current sequence number and the 16-bit `length` argument, then
increments the sequence number (wrapping `u8`). -/
def write_header (s : MessageSerializer) (length : Nat) : MessageSerializer :=
  { s with
    frames := s.frames ++
      [IMPLEMENTED_VERSION, OpCodeData, s.sequence_number % 256] ++ be16 (length % 2 ^ 16)
    sequence_number := (s.sequence_number % 256 + 1) % 256 }

/-- `MessageSerializer::reset` (proto.rs:119-125): clear the buffer, zero
the count, write a placeholder header (which also advances the sequence
number). -/
def MessageSerializer.reset (s : MessageSerializer) : MessageSerializer :=
  write_header { s with frames := [], count := 0 } 0

/-- `MessageSerializer::new` (proto.rs:70-78). -/
def MessageSerializer.new : MessageSerializer :=
  MessageSerializer.reset { sequence_number := 0, frames := [], count := 0 }

/-- `MessageSerializer::push_frame` (proto.rs:100-108): append the frame's
encoding and increment the count. -/
def push_frame (s : MessageSerializer) (f : CanAnyFrame) : MessageSerializer :=
  { s with frames := s.frames ++ pushBytes f, count := s.count + 1 }

/-- A sequence of `push_frame` calls. -/
def pushAll (s : MessageSerializer) (fs : List CanAnyFrame) : MessageSerializer :=
  fs.foldl push_frame s

/-- `MessageSerializer::finalize` (proto.rs:127-132) plus the drop of the
returned `Finalizer` (proto.rs:63-67): overwrite bytes 3..5 with the
big-endian count, hand out that buffer, and reset on release. -/
def MessageSerializer.finalize (s : MessageSerializer) : List Nat × MessageSerializer :=
  let bytes := s.frames.take 3 ++ be16 (s.count % 2 ^ 16) ++ s.frames.drop 5
  (bytes, MessageSerializer.reset { s with frames := bytes })

/-- One `finalize` call followed by the release (drop) of its `Finalizer`:
the state the serializer is in when the next operation runs. -/
def finalizeRelease (s : MessageSerializer) : MessageSerializer :=
  (MessageSerializer.finalize s).2

/-! ## Decoder side -/

/-- `AsyncReadExt::read_exact` of one byte from an in-memory buffer:
yields the byte and the rest, or fails (`UnexpectedEof`) on an empty
buffer. -/
def readU8 : List Nat → Option (Nat × List Nat)
  | [] => none
  | b :: rest => some (b, rest)

/-- `AsyncReadExt::read_exact` of `n` bytes from an in-memory buffer:
yields the bytes and the rest, or fails (`UnexpectedEof`) when fewer than
`n` bytes remain (the failed call consumes the whole remainder). -/
def readExact (n : Nat) (buf : List Nat) : Option (List Nat × List Nat) :=
  if n ≤ buf.length then some (buf.take n, buf.drop n) else none

/-- Outcome of `proto::deserialize_from` on one frame: a decoded frame
plus the unconsumed buffer, an `UnexpectedEof` I/O error (the spec's
`TruncatedInput`; the failed `read_exact` has drained the buffer), a Rust
panic raised by slicing the fixed-size `data` array with an out-of-range
declared length, or a `CanFdFrame::try_from` construction error. -/
inductive DeserializeResult where
  | ok (f : CanAnyFrame) (rest : List Nat)
  | truncated (rest : List Nat)
  | panicked
  | constructionError (rest : List Nat)
deriving DecidableEq

/-- `impl From<can_frame> for CanFrame` in socketcan (then lifted into
`CanAnyFrame`): classify by the id's `CAN_ERR_FLAG`, then `CAN_RTR_FLAG`. -/
def classify (f : can_frame) : CanAnyFrame :=
  if f.can_id &&& CAN_ERR_FLAG ≠ 0 then .Error f
  else if f.can_id &&& CAN_RTR_FLAG ≠ 0 then .Remote f
  else .Normal f

/-- `CanFdFrame::try_from(canfd_frame)` in socketcan: rejects a frame
whose `len` exceeds `CANFD_MAX_DLEN` (64). -/
def canFdTryFrom (f : canfd_frame) : Option CanAnyFrame :=
  if f.len ≤ 64 then some (.Fd f) else none

/-- `proto::deserialize_from` (proto.rs:139-168).  Reads the 4-byte id and
the length byte; on the FD marker bit reads the flags byte and then slices
the 64-byte `data` array with `len & !CANFD_FRAME_MARKER` (a Rust panic
when that exceeds 64); otherwise slices the 8-byte array with the length
(a panic above 8).  Fresh frames come from `can_frame_default` /
`canfd_frame_default`, so bytes past the payload stay zero. -/
def deserialize_from (buf : List Nat) : DeserializeResult :=
  match readExact 4 buf with
  | none => .truncated []
  | some (idBytes, r1) =>
    let id := ofBe idBytes
    match readU8 r1 with
    | none => .truncated []
    | some (len, r2) =>
      if len &&& CANFD_FRAME_MARKER > 0 then
        let fdLen := len &&& 0x7F
        match readU8 r2 with
        | none => .truncated []
        | some (flags, r3) =>
          if 64 < fdLen then .panicked
          else
            match readExact fdLen r3 with
            | none => .truncated []
            | some (payload, r4) =>
              let fr : canfd_frame :=
                { can_id := id, len := fdLen, flags := flags
                  data := payload ++ List.replicate (64 - fdLen) 0 }
              match canFdTryFrom fr with
              | some any => .ok any r4
              | none => .constructionError r4
      else
        if 8 < len then .panicked
        else
          match readExact len r2 with
          | none => .truncated []
          | some (payload, r3) =>
            let fr : can_frame :=
              { can_id := id, can_dlc := len
                data := payload ++ List.replicate (8 - len) 0 }
            .ok (classify fr) r3

/-- Outcome of `MessageReader::try_read` (proto.rs:177-206): an I/O error
from a failed header read, `Ok(None)` on a version/opcode mismatch, or
`Ok(Some(reader))` carrying the sequence number, the frame count and the
buffer positioned after the header. -/
inductive TryReadResult where
  | ioError : TryReadResult
  | noReader : TryReadResult
  | reader (sequence_number : Nat) (remaining : Nat) (rest : List Nat) : TryReadResult
deriving DecidableEq

/-- `MessageReader::try_read` (proto.rs:177-206): read the version and
opcode bytes, then on a match read the sequence number and the 16-bit
count; reads are attempted in that order, so a short buffer is an I/O
error even when its version byte already mismatches. -/
def try_read (buf : List Nat) : TryReadResult :=
  match readU8 buf with
  | none => .ioError
  | some (version, r1) =>
    match readU8 r1 with
    | none => .ioError
    | some (op_code, r2) =>
      if IMPLEMENTED_VERSION = version ∧ OpCodeData = op_code then
        match readU8 r2 with
        | none => .ioError
        | some (sequence_number, r3) =>
          match readExact 2 r3 with
          | none => .ioError
          | some (countBytes, r4) => .reader sequence_number (ofBe countBytes) r4
      else .noReader

/-- One element yielded by the stream of `MessageReader::into_stream`:
either a decoded frame (`Ok`) or a decode failure (`Err`). -/
inductive StreamItem where
  | okFrame (f : CanAnyFrame)
  | errItem
deriving DecidableEq

/-- `MessageReader::into_stream` (proto.rs:218-227): while `remaining > 0`,
decrement it and yield the outcome of `deserialize_from` on the shared
buffer.  Returns the yielded items plus a flag telling whether a decode
attempt panicked (aborting the stream).  Note the source only decrements
`remaining`; it does not zero it when a decode fails. -/
def intoStream : Nat → List Nat → List StreamItem × Bool
  | 0, _ => ([], false)
  | r + 1, buf =>
    match deserialize_from buf with
    | .ok f rest =>
      let p := intoStream r rest
      (.okFrame f :: p.1, p.2)
    | .truncated rest =>
      let p := intoStream r rest
      (.errItem :: p.1, p.2)
    | .constructionError rest =>
      let p := intoStream r rest
      (.errItem :: p.1, p.2)
    | .panicked => ([], true)

/-! ## Validity of CAN frames

What the socketcan wrapper types guarantee about the raw structs they
carry: ids fit in a `u32`, payload lengths are within the kind's maximum,
the fixed arrays have their full size and hold bytes, and the id flag bits
match the wrapper variant (`CanDataFrame` has neither `CAN_ERR_FLAG` nor
`CAN_RTR_FLAG` set, `CanRemoteFrame` has `CAN_RTR_FLAG` and not
`CAN_ERR_FLAG`, `CanErrorFrame` has `CAN_ERR_FLAG`). -/

/-- A well-formed raw classic frame record. -/
def wfClassic (f : can_frame) : Prop :=
  f.can_id < 2 ^ 32 ∧ f.can_dlc ≤ 8 ∧ f.data.length = 8 ∧ ∀ b ∈ f.data, b < 256

instance (f : can_frame) : Decidable (wfClassic f) := by
  unfold wfClassic; infer_instance

/-- A valid `CanAnyFrame` as socketcan's constructors guarantee it. -/
def wfAny : CanAnyFrame → Prop
  | .Normal f => wfClassic f ∧ f.can_id &&& CAN_ERR_FLAG = 0 ∧ f.can_id &&& CAN_RTR_FLAG = 0
  | .Remote f => wfClassic f ∧ f.can_id &&& CAN_ERR_FLAG = 0 ∧ f.can_id &&& CAN_RTR_FLAG ≠ 0
  | .Error f => wfClassic f ∧ f.can_id &&& CAN_ERR_FLAG ≠ 0
  | .Fd f => f.can_id < 2 ^ 32 ∧ f.len ≤ 64 ∧ f.flags < 256 ∧
      f.data.length = 64 ∧ ∀ b ∈ f.data, b < 256

instance (f : CanAnyFrame) : Decidable (wfAny f) := by
  cases f <;> (unfold wfAny; infer_instance)

/-- The raw `can_id` of a frame, before any accessor masking. -/
def rawId : CanAnyFrame → Nat
  | .Normal f => f.can_id
  | .Remote f => f.can_id
  | .Error f => f.can_id
  | .Fd f => f.can_id

/-- Kind marker of the claims: FD or classic (Normal, Remote and Error
all encode as classic 2.0 frames). -/
def isFd : CanAnyFrame → Bool
  | .Fd _ => true
  | _ => false

/-! ## Bridge loop: send path

The send loops of `src/udp.rs` (send, lines 33-80) and `src/main.rs`
(send, lines 36-85) are a state machine over the pending batch and the
optional force-flush timer.  One loop iteration consumes exactly one
event: a frame read from CAN, a read failure, or a timer expiry (the
latter only when a timer is armed).  The state keeps the frames pushed
since the last flush; flushing finalizes and sends them.  The two loops
differ only on a failed CAN read: `udp.rs` propagates the error with `?`
(terminating the path) while `main.rs` keeps looping. -/

/-- `UDP_NO_FRAGMENT_MAX_PAYLOAD_SIZE` (udp.rs:31, main.rs:34). -/
def UDP_NO_FRAGMENT_MAX_PAYLOAD_SIZE : Nat := 508

/-- One event consumed by the send loop. -/
inductive SendEvent where
  | canFrame (f : CanAnyFrame)
  | timerFire
  | readError
deriving DecidableEq

/-- Send-path state: the frames pushed into the encoder since the last
flush, and whether the force-flush timer is armed (`timer.is_some()`). -/
structure SendState where
  pushed : List CanAnyFrame
  timerArmed : Bool
deriving DecidableEq

/-- Modelled from the spec: `encoder.encoded_size()` called at udp.rs:49
and main.rs:49 belongs to the proto version these files were written
against, which is not among the sources; spec section 4.2 defines it as
the 5-byte header plus the running sum of the pushed frames' encoded
sizes, with the per-frame size given by the Wire Codec's `encoded_size`. -/
def batchTrackedSize (l : List CanAnyFrame) : Nat :=
  5 + (l.map encoded_size).sum

/-- The byte length of the datagram actually produced by finalizing a
batch holding the given frames: the 5-byte header plus the bytes
`push_frame` appended. -/
def batchByteSize (l : List CanAnyFrame) : Nat :=
  5 + (l.map fun f => (pushBytes f).length).sum

/-- The budget test of udp.rs:49/66 and main.rs:49/68:
`encoder.encoded_size() + frame.encoded_size() > UDP_NO_FRAGMENT_MAX_PAYLOAD_SIZE`. -/
def overBudget (s : SendState) (f : CanAnyFrame) : Bool :=
  UDP_NO_FRAGMENT_MAX_PAYLOAD_SIZE < batchTrackedSize s.pushed + encoded_size f

/-- One iteration of the `udp.rs` send loop (udp.rs:42-79): the new state
and the batches flushed during the iteration, or the error that
terminates the loop (a failed CAN read is propagated with `?`). -/
def sendStepUdp (s : SendState) : SendEvent → Except Unit (SendState × List (List CanAnyFrame))
  | .readError => .error ()
  | .canFrame f =>
    if overBudget s f then
      .ok ({ pushed := [f], timerArmed := true }, [s.pushed])
    else
      .ok ({ pushed := s.pushed ++ [f], timerArmed := true }, [])
  | .timerFire =>
    if s.timerArmed then .ok ({ pushed := [], timerArmed := false }, [s.pushed])
    else .ok (s, [])

/-- The `udp.rs` send loop run on a list of events from a state: the final
state and every batch flushed, or an error once a CAN read fails. -/
def runSendUdp (s : SendState) : List SendEvent → Except Unit (SendState × List (List CanAnyFrame))
  | [] => .ok (s, [])
  | e :: es =>
    match sendStepUdp s e with
    | .error u => .error u
    | .ok (s', fl) =>
      match runSendUdp s' es with
      | .error u => .error u
      | .ok (s'', fl') => .ok (s'', fl ++ fl')

/-- One iteration of the `main.rs` send loop (main.rs:45-84): identical to
the `udp.rs` loop except that a failed CAN read leaves the state untouched
and the loop continues (`if let Ok(frame) = ... else` keeps the current
timer value). -/
def sendStepMain (s : SendState) : SendEvent → SendState × List (List CanAnyFrame)
  | .readError => (s, [])
  | .canFrame f =>
    if overBudget s f then
      ({ pushed := [f], timerArmed := true }, [s.pushed])
    else
      ({ pushed := s.pushed ++ [f], timerArmed := true }, [])
  | .timerFire =>
    if s.timerArmed then ({ pushed := [], timerArmed := false }, [s.pushed])
    else (s, [])

/-- The `main.rs` send loop run on a list of events. -/
def runSendMain (s : SendState) : List SendEvent → SendState × List (List CanAnyFrame)
  | [] => (s, [])
  | e :: es =>
    let p := sendStepMain s e
    let q := runSendMain p.1 es
    (q.1, p.2 ++ q.2)

/-- The initial send-path state (udp.rs:39-40, main.rs:42-43): a fresh
encoder, no timer armed. -/
def initSendState : SendState := { pushed := [], timerArmed := false }

/-! ## Bridge loop: receive path -/

/-- The frames successfully decoded from the stream items (the candidates
handed to `write_frame`; per-frame write failures are ignored). -/
def okFrames (l : List StreamItem) : List CanAnyFrame :=
  l.foldr (fun i acc => match i with | .okFrame f => f :: acc | .errItem => acc) []

/-- One iteration of the receive loop (udp.rs:110-122, main.rs:112-125)
for a datagram of `bytes` arriving from `peer`: the frames replayed onto
the CAN sink.  A datagram whose sender equals `local_address` is skipped
before any decoding (`if peer != local_address`); otherwise a decoder from
`try_read` (when one is produced) is drained and each decoded frame is
written.  Addresses are modelled abstractly as naturals. -/
def receiveWrites (local_address peer : Nat) (bytes : List Nat) : List CanAnyFrame :=
  if peer ≠ local_address then
    match try_read bytes with
    | .reader _ remaining rest => okFrames (intoStream remaining rest).1
    | _ => []
  else []

/-! ## Canonical decoded frames and concrete probe inputs -/

/-- The classic frame `deserialize_from` rebuilds from the encoding of
`f`: same id and dlc, payload copied into a zeroed 8-byte array. -/
def canonClassic (f : can_frame) : can_frame :=
  { can_id := f.can_id, can_dlc := f.can_dlc
    data := f.data.take f.can_dlc ++ List.replicate (8 - f.can_dlc) 0 }

/-- The FD frame `deserialize_from` rebuilds from the encoding of `f`. -/
def canonFd (f : canfd_frame) : canfd_frame :=
  { can_id := f.can_id, len := f.len, flags := f.flags
    data := f.data.take f.len ++ List.replicate (64 - f.len) 0 }

/-- The frame the decoder returns for the encoding of `f`. -/
def canon : CanAnyFrame → CanAnyFrame
  | .Normal f => .Normal (canonClassic f)
  | .Remote f => .Remote (canonClassic f)
  | .Error f => .Error (canonClassic f)
  | .Fd f => .Fd (canonFd f)

/-- A remote-transmission-request frame asking for 4 data bytes
(standard id `0x14` with `CAN_RTR_FLAG` set, zeroed data array). -/
def remoteProbe : can_frame :=
  { can_id := 0x40000014, can_dlc := 4, data := [0, 0, 0, 0, 0, 0, 0, 0] }

/-- A remote-transmission-request frame asking for 8 data bytes. -/
def remoteProbe8 : can_frame :=
  { can_id := 0x40000014, can_dlc := 8, data := [0, 0, 0, 0, 0, 0, 0, 0] }

/-- Send-path event trace: 39 remote frames arrive, then the force-flush
timer fires. -/
def budgetTrace : List SendEvent :=
  List.replicate 39 (SendEvent.canFrame (.Remote remoteProbe8)) ++ [SendEvent.timerFire]

/-! ## Helper lemmas -/

theorem take_append_of_len {α : Type} {l : List α} {n : Nat} (r : List α)
    (h : l.length = n) : (l ++ r).take n = l := by
  subst h
  induction l with
  | nil => simp
  | cons a l ih => simp [ih]

theorem drop_append_of_len {α : Type} {l : List α} {n : Nat} (r : List α)
    (h : l.length = n) : (l ++ r).drop n = r := by
  subst h
  induction l with
  | nil => simp
  | cons a l ih => simp [ih]

theorem readExact_append {l : List Nat} {n : Nat} (r : List Nat)
    (h : l.length = n) : readExact n (l ++ r) = some (l, r) := by
  unfold readExact
  rw [if_pos (by simp [List.length_append]; omega)]
  rw [take_append_of_len r h, drop_append_of_len r h]

theorem ofBe_be32 {n : Nat} (h : n < 2 ^ 32) : ofBe (be32 n) = n := by
  simp only [ofBe, be32, List.foldl]
  omega

theorem ofBe_be16 {n : Nat} (h : n < 2 ^ 16) : ofBe (be16 n) = n := by
  simp only [ofBe, be16, List.foldl]
  omega

theorem and_marker_of_le_8 {n : Nat} (h : n ≤ 8) : n &&& CANFD_FRAME_MARKER = 0 := by
  interval_cases n <;> decide

theorem fd_marker_or {n : Nat} (h : n ≤ 64) :
    (n ||| CANFD_FRAME_MARKER) &&& CANFD_FRAME_MARKER > 0 ∧
      (n ||| CANFD_FRAME_MARKER) &&& 0x7F = n := by
  interval_cases n <;> exact ⟨by decide, by decide⟩

/-- Decoding the encoding of a well-formed classic frame: the id, dlc and
payload come back; the frame is then classified by its id flag bits. -/
theorem deserialize_serialize_classic (f : can_frame) (rest : List Nat)
    (h : wfClassic f) :
    deserialize_from (serialize_2_0_frame f ++ rest) =
      .ok (classify (canonClassic f)) rest := by
  obtain ⟨hid, hdlc, hlen, -⟩ := h
  have hmod : f.can_id % 4294967296 = f.can_id := Nat.mod_eq_of_lt hid
  have hdmod : f.can_dlc % 256 = f.can_dlc := Nat.mod_eq_of_lt (by omega)
  have htake : (f.data.take f.can_dlc).length = f.can_dlc := by
    simp [List.length_take]; omega
  have e : serialize_2_0_frame f ++ rest =
      be32 f.can_id ++ (f.can_dlc :: (f.data.take f.can_dlc ++ rest)) := by
    simp [serialize_2_0_frame, hmod, hdmod]
  have h1 : readExact 4 (be32 f.can_id ++ (f.can_dlc :: (f.data.take f.can_dlc ++ rest))) =
      some (be32 f.can_id, f.can_dlc :: (f.data.take f.can_dlc ++ rest)) :=
    readExact_append _ rfl
  have h2 : readU8 (f.can_dlc :: (f.data.take f.can_dlc ++ rest)) =
      some (f.can_dlc, f.data.take f.can_dlc ++ rest) := rfl
  have h3 : readExact f.can_dlc (f.data.take f.can_dlc ++ rest) =
      some (f.data.take f.can_dlc, rest) := readExact_append _ htake
  rw [e]
  simp only [deserialize_from, h1, h2, h3, and_marker_of_le_8 hdlc, ofBe_be32 hid,
    gt_iff_lt, lt_self_iff_false, if_false]
  rw [if_neg (by omega)]
  rfl

/-- Decoding the encoding of a well-formed frame of any kind yields the
canonical rebuilt frame and leaves the trailing bytes unread. -/
theorem deserialize_pushBytes (f : CanAnyFrame) (rest : List Nat) (h : wfAny f) :
    deserialize_from (pushBytes f ++ rest) = .ok (canon f) rest := by
  cases f with
  | Normal f =>
    obtain ⟨hc, herr, hrtr⟩ := h
    rw [show pushBytes (.Normal f) = serialize_2_0_frame f from rfl,
      deserialize_serialize_classic f rest hc]
    simp [canon, classify, canonClassic, herr, hrtr]
  | Remote f =>
    obtain ⟨hc, herr, hrtr⟩ := h
    rw [show pushBytes (.Remote f) = serialize_2_0_frame f from rfl,
      deserialize_serialize_classic f rest hc]
    simp [canon, classify, canonClassic, herr, hrtr]
  | Error f =>
    obtain ⟨hc, herr⟩ := h
    rw [show pushBytes (.Error f) = serialize_2_0_frame f from rfl,
      deserialize_serialize_classic f rest hc]
    simp [canon, classify, canonClassic, herr]
  | Fd f =>
    obtain ⟨hid, hlen, hflags, hdata, -⟩ := h
    have hmod : f.can_id % 4294967296 = f.can_id := Nat.mod_eq_of_lt hid
    have hlmod : f.len % 256 = f.len := Nat.mod_eq_of_lt (by omega)
    have hfmod : f.flags % 256 = f.flags := Nat.mod_eq_of_lt hflags
    have htake : (f.data.take f.len).length = f.len := by
      simp [List.length_take]; omega
    obtain ⟨hbit, hmask⟩ := fd_marker_or hlen
    have e : pushBytes (.Fd f) ++ rest = be32 f.can_id ++
        ((f.len ||| CANFD_FRAME_MARKER) :: (f.flags :: (f.data.take f.len ++ rest))) := by
      simp [pushBytes, serialize_fd_frame, hmod, hlmod, hfmod]
    have h1 : readExact 4 (be32 f.can_id ++
        ((f.len ||| CANFD_FRAME_MARKER) :: (f.flags :: (f.data.take f.len ++ rest)))) =
        some (be32 f.can_id,
          (f.len ||| CANFD_FRAME_MARKER) :: (f.flags :: (f.data.take f.len ++ rest))) :=
      readExact_append _ rfl
    have h2 : readU8 ((f.len ||| CANFD_FRAME_MARKER) ::
        (f.flags :: (f.data.take f.len ++ rest))) =
        some (f.len ||| CANFD_FRAME_MARKER, f.flags :: (f.data.take f.len ++ rest)) := rfl
    have h3 : readU8 (f.flags :: (f.data.take f.len ++ rest)) =
        some (f.flags, f.data.take f.len ++ rest) := rfl
    have h4 : readExact f.len (f.data.take f.len ++ rest) =
        some (f.data.take f.len, rest) := readExact_append _ htake
    rw [e]
    simp only [deserialize_from, h1, h2, h3, hmask, h4, ofBe_be32 hid, if_pos hbit]
    rw [if_neg (by omega)]
    simp [canFdTryFrom, Nat.not_lt.mp, hlen, canon, canonFd]

theorem dataBytes_canon (f : CanAnyFrame) (h : wfAny f) :
    dataBytes (canon f) = dataBytes f := by
  cases f with
  | Normal f =>
    obtain ⟨⟨-, hdlc, hlen, -⟩, -, -⟩ := h
    show (f.data.take f.can_dlc ++ List.replicate (8 - f.can_dlc) 0).take f.can_dlc =
      f.data.take f.can_dlc
    exact take_append_of_len _ (by simp [List.length_take]; omega)
  | Remote f => rfl
  | Error f =>
    obtain ⟨⟨-, hdlc, hlen, -⟩, -⟩ := h
    show (f.data.take f.can_dlc ++ List.replicate (8 - f.can_dlc) 0).take f.can_dlc =
      f.data.take f.can_dlc
    exact take_append_of_len _ (by simp [List.length_take]; omega)
  | Fd f =>
    obtain ⟨-, hlen, -, hdata, -⟩ := h
    show (f.data.take f.len ++ List.replicate (64 - f.len) 0).take f.len =
      f.data.take f.len
    exact take_append_of_len _ (by simp [List.length_take]; omega)

theorem rawId_canon (f : CanAnyFrame) : rawId (canon f) = rawId f := by
  cases f <;> rfl

theorem isFd_canon (f : CanAnyFrame) : isFd (canon f) = isFd f := by
  cases f <;> rfl

/-! ## Claim theorems -/

/-- C1: for every valid CAN frame (classic and FD, including 0-length and
max-length payloads, standard and extended identifiers), decoding the
bytes produced by encoding the frame reproduces the frame's identifier,
data and kind (classic vs FD) exactly, leaving trailing input unread. -/
theorem C1_encode_decode_roundtrip (f : CanAnyFrame) (rest : List Nat) (h : wfAny f) :
    ∃ f', deserialize_from (pushBytes f ++ rest) = .ok f' rest ∧
      rawId f' = rawId f ∧ dataBytes f' = dataBytes f ∧ isFd f' = isFd f :=
  ⟨canon f, deserialize_pushBytes f rest h, rawId_canon f, dataBytes_canon f h, isFd_canon f⟩

/-- Witness for C1: the round trip evaluated on the classic frame of the
repository's own `single_frame` test (id 0x14, data 0,1,2,3,4). -/
theorem C1_encode_decode_roundtrip_witness :
    wfAny (.Normal ⟨0x14, 5, [0, 1, 2, 3, 4, 0, 0, 0]⟩) ∧
    ∃ f', deserialize_from (pushBytes (.Normal ⟨0x14, 5, [0, 1, 2, 3, 4, 0, 0, 0]⟩) ++ []) =
        .ok f' [] ∧
      rawId f' = rawId (.Normal ⟨0x14, 5, [0, 1, 2, 3, 4, 0, 0, 0]⟩) ∧
      dataBytes f' = dataBytes (.Normal ⟨0x14, 5, [0, 1, 2, 3, 4, 0, 0, 0]⟩) ∧
      isFd f' = isFd (.Normal ⟨0x14, 5, [0, 1, 2, 3, 4, 0, 0, 0]⟩) :=
  ⟨by decide, C1_encode_decode_roundtrip _ [] (by decide)⟩

/-- C2: `encoded_size` diverges from the bytes `push_frame` actually
appends on a valid remote frame with a nonzero dlc: the remote frame's
`data()` accessor is empty, so `encoded_size` answers 5, while
`serialize_2_0_frame` writes the id, the dlc byte and `can_dlc` raw data
bytes, 9 bytes in total. -/
theorem C2_encoded_size_remote_divergence :
    wfAny (.Remote remoteProbe) ∧
    encoded_size (.Remote remoteProbe) = 5 ∧
    (pushBytes (.Remote remoteProbe)).length = 9 ∧
    ∀ s : MessageSerializer,
      (push_frame s (.Remote remoteProbe)).frames.length = s.frames.length + 9 := by
  refine ⟨by decide, by decide, by decide, fun s => ?_⟩
  simp [push_frame, List.length_append,
    show (pushBytes (CanAnyFrame.Remote remoteProbe)).length = 9 from by decide]

/-- C5: a declared length above the kind's maximum makes `deserialize_from`
panic (out-of-range slice of the fixed-size data array) instead of
returning a `MalformedLength` error: length byte 9 on a classic frame,
or an FD length byte with payload length 65 (`0x80 | 65 = 193`).  A short
buffer is reported as an `UnexpectedEof` read error (`TruncatedInput`). -/
theorem C5_malformed_length_panics :
    deserialize_from [0, 0, 0, 20, 9] = .panicked ∧
    deserialize_from [0, 0, 0, 20, 193, 0] = .panicked ∧
    deserialize_from [0, 0, 0, 20, 5, 1, 2] = .truncated [] ∧
    deserialize_from [0, 0, 0, 20, 193] = .truncated [] := by decide

/-- C8 (amended): in the `main.rs` send loop a failed CAN read pushes no
frame, flushes nothing, leaves the batch and timer state unchanged, and
the loop simply proceeds to the next event. -/
theorem C8_read_failure_amended (s : SendState) (t : List SendEvent) :
    sendStepMain s .readError = (s, []) ∧
    runSendMain s (SendEvent.readError :: t) = runSendMain s t := by
  constructor
  · rfl
  · simp [runSendMain, sendStepMain]

/-- C8 counterexample: the `udp.rs` send loop does not retry a failed CAN
read; it propagates the error and terminates the send path. -/
theorem C8_udp_read_failure_counterexample :
    sendStepUdp initSendState .readError = .error () ∧
    runSendUdp initSendState [SendEvent.readError] = .error () :=
  ⟨rfl, rfl⟩

/-- C9: a datagram whose sender address equals the local send address is
skipped before any decoding, so no frame from it is ever written to the
CAN sink. -/
theorem C9_self_loop_suppressed (a : Nat) (bytes : List Nat) :
    receiveWrites a a bytes = [] := by
  simp [receiveWrites]

/-- C10: data-array bytes beyond the declared length never reach the wire:
two frames of the same kind agreeing on identifier, declared length,
flags and the first declared-length data bytes encode identically. -/
theorem C10_bytes_beyond_declared_length_ignored :
    (∀ f g : can_frame, f.can_id = g.can_id → f.can_dlc = g.can_dlc →
      f.data.take f.can_dlc = g.data.take g.can_dlc →
      pushBytes (.Normal f) = pushBytes (.Normal g) ∧
      pushBytes (.Remote f) = pushBytes (.Remote g) ∧
      pushBytes (.Error f) = pushBytes (.Error g)) ∧
    (∀ p q : canfd_frame, p.can_id = q.can_id → p.len = q.len → p.flags = q.flags →
      p.data.take p.len = q.data.take q.len →
      pushBytes (.Fd p) = pushBytes (.Fd q)) := by
  constructor
  · intro f g h1 h2 h3
    rw [h2] at h3
    refine ⟨?_, ?_, ?_⟩ <;> simp [pushBytes, serialize_2_0_frame, h1, h2, h3]
  · intro p q h1 h2 h3 h4
    rw [h2] at h4
    simp [pushBytes, serialize_fd_frame, h1, h2, h3, h4]

/-- Witness for C10: concrete classic and FD frame pairs that differ only
in data bytes beyond the declared length encode to identical bytes. -/
theorem C10_bytes_beyond_declared_length_ignored_witness :
    pushBytes (.Normal ⟨20, 2, [1, 2, 3, 4, 5, 6, 7, 8]⟩) =
      pushBytes (.Normal ⟨20, 2, [1, 2, 9, 9, 9, 9, 9, 9]⟩) ∧
    pushBytes (.Fd ⟨20, 2, 0, [1, 2, 3]⟩) = pushBytes (.Fd ⟨20, 2, 0, [1, 2, 7]⟩) :=
  ⟨(C10_bytes_beyond_declared_length_ignored.1
      ⟨20, 2, [1, 2, 3, 4, 5, 6, 7, 8]⟩ ⟨20, 2, [1, 2, 9, 9, 9, 9, 9, 9]⟩
      rfl rfl (by decide)).1,
   C10_bytes_beyond_declared_length_ignored.2
      ⟨20, 2, 0, [1, 2, 3]⟩ ⟨20, 2, 0, [1, 2, 7]⟩ rfl rfl rfl (by decide)⟩

/-- C3 counterexample: from a fresh serializer, the decoded sequence
number of the first finalized batch is 0 while the sequence counter
immediately before `finalize` already reads 1, and after one
finalize-and-release cycle the counter reads 2, not 1: `write_header`
increments the counter when the placeholder header is written at reset. -/
theorem C3_sequence_counter_counterexample :
    try_read (MessageSerializer.new.finalize).1 = .reader 0 0 [] ∧
    MessageSerializer.new.sequence_number = 1 ∧
    MessageSerializer.new.sequence_number ≠ 0 ∧
    (finalizeRelease^[1] MessageSerializer.new).sequence_number = 2 ∧
    (finalizeRelease^[1] MessageSerializer.new).sequence_number ≠ 1 % 256 := by
  decide

/-- C4 counterexample: a batch declaring 2 frames but truncated right
after its 1st frame yields a decoder stream with two items, a decoded
frame followed by an error item, not exactly one item: a failed decode
only decrements `remaining`, it does not exhaust the decoder. -/
theorem C4_truncation_counterexample :
    try_read [2, 0, 0, 0, 2, 0, 0, 0, 20, 1, 7] = .reader 0 2 [0, 0, 0, 20, 1, 7] ∧
    (intoStream 2 [0, 0, 0, 20, 1, 7]).1 =
      [.okFrame (.Normal ⟨20, 1, [7, 0, 0, 0, 0, 0, 0, 0]⟩), .errItem] ∧
    (intoStream 2 [0, 0, 0, 20, 1, 7]).1.length ≠ 1 := by
  decide

/-- C6 counterexample: a 1-byte datagram whose version byte differs from 2
makes `try_read` fail with an I/O error (the opcode read hits end of
input), not return "no decoder". -/
theorem C6_short_mismatch_counterexample :
    try_read [3] = .ioError ∧ try_read [3] ≠ .noReader := by decide

/-! ## Batch header lemmas (for C3) -/

theorem pushAll_spec (fs : List CanAnyFrame) : ∀ t : MessageSerializer,
    pushAll t fs = { sequence_number := t.sequence_number,
                     frames := t.frames ++ (fs.map pushBytes).flatten,
                     count := t.count + fs.length } := by
  induction fs with
  | nil => intro t; simp [pushAll]
  | cons f fs ih =>
    intro t
    rw [show pushAll t (f :: fs) = pushAll (push_frame t f) fs from rfl, ih]
    simp [push_frame, List.append_assoc]
    omega

theorem reset_spec (s : MessageSerializer) :
    MessageSerializer.reset s =
      { sequence_number := (s.sequence_number % 256 + 1) % 256,
        frames := [2, 0, s.sequence_number % 256, 0, 0], count := 0 } := by
  simp [MessageSerializer.reset, write_header, be16, IMPLEMENTED_VERSION, OpCodeData]

theorem try_read_header (q c : Nat) (J : List Nat) (hc : c < 2 ^ 16) :
    try_read ([2, 0, q] ++ be16 c ++ J) = .reader q c J := by
  show try_read (2 :: 0 :: q :: (c / 2 ^ 8 % 256) :: (c % 256) :: J) = _
  unfold try_read
  simp only [readU8]
  rw [if_pos ⟨rfl, rfl⟩]
  unfold readExact
  rw [if_pos (by simp)]
  simp only [List.take_succ_cons, List.take_zero, List.drop_succ_cons, List.drop_zero]
  have : ofBe [c / 2 ^ 8 % 256, c % 256] = c := by
    simp only [ofBe, List.foldl]
    omega
  rw [this]

theorem finalize_after_pushAll (s : MessageSerializer) (fs : List CanAnyFrame) :
    ((pushAll (MessageSerializer.reset s) fs).finalize).1 =
      [2, 0, s.sequence_number % 256] ++ be16 (fs.length % 2 ^ 16) ++
        (fs.map pushBytes).flatten := by
  rw [pushAll_spec, reset_spec]
  simp [MessageSerializer.finalize]

theorem finalizeRelease_seq (s : MessageSerializer) :
    (finalizeRelease s).sequence_number = (s.sequence_number % 256 + 1) % 256 := by
  simp [finalizeRelease, MessageSerializer.finalize, reset_spec]

/-- C3 (amended): the decoded frame count equals the number of pushes
since the last reset (mod 2^16); the decoded sequence number equals the
pre-finalize sequence counter minus one (mod 256), because `write_header`
already incremented the counter when the placeholder header was written at
reset; and after `n` finalize-and-release cycles from a fresh serializer
the counter reads `n + 1` (mod 256), one ahead of the last emitted
header. -/
theorem C3_header_invariant_amended (s : MessageSerializer) (fs : List CanAnyFrame) (n : Nat) :
    try_read ((pushAll (MessageSerializer.reset s) fs).finalize).1 =
      .reader (((pushAll (MessageSerializer.reset s) fs).sequence_number + 255) % 256)
        (fs.length % 2 ^ 16) ((fs.map pushBytes).flatten) ∧
    (finalizeRelease^[n] MessageSerializer.new).sequence_number = (n + 1) % 256 := by
  constructor
  · have hq : ((pushAll (MessageSerializer.reset s) fs).sequence_number + 255) % 256 =
        s.sequence_number % 256 := by
      rw [pushAll_spec, reset_spec]
      simp only []
      omega
    rw [finalize_after_pushAll, try_read_header _ _ _ (Nat.mod_lt _ (by omega)), hq]
  · induction n with
    | zero =>
      show MessageSerializer.new.sequence_number = 1 % 256
      rfl
    | succ n ih =>
      rw [Function.iterate_succ_apply', finalizeRelease_seq, ih]
      omega

/-! ## Stream truncation lemmas (for C4) -/

theorem intoStream_nil_buf (N : Nat) : intoStream N [] = (List.replicate N .errItem, false) := by
  induction N with
  | zero => rfl
  | succ n ih =>
    simp only [intoStream]
    rw [show deserialize_from [] = .truncated [] from rfl]
    simp [ih, List.replicate_succ]

/-- C4 (amended): truncating an otherwise-valid batch of `N` declared
frames right after its Kth frame yields a decoder that produces exactly
the K decoded frames followed by `N - K` error items, one failed decode
attempt per remaining declared frame: the decoder does not mark itself
exhausted when a decode fails, it only counts the attempt. -/
theorem C4_truncation_amended (fs : List CanAnyFrame) (N : Nat)
    (hwf : ∀ f ∈ fs, wfAny f) (hK : fs.length ≤ N) :
    intoStream N ((fs.map pushBytes).flatten) =
      (fs.map (fun f => StreamItem.okFrame (canon f)) ++
        List.replicate (N - fs.length) .errItem, false) := by
  induction fs generalizing N with
  | nil => simp [intoStream_nil_buf]
  | cons f fs ih =>
    cases N with
    | zero => simp at hK
    | succ N =>
      have hjoin : (((f :: fs).map pushBytes).flatten : List Nat) =
          pushBytes f ++ (fs.map pushBytes).flatten := by simp
      rw [hjoin]
      simp only [intoStream]
      rw [deserialize_pushBytes f _ (hwf f (by simp))]
      dsimp only
      rw [ih N (fun g hg => hwf g (by simp [hg])) (by simpa using hK)]
      simp [Nat.succ_sub_succ]

/-- Witness for C4 (amended): one valid classic frame, three declared
frames: the stream yields the decoded frame and then two error items. -/
theorem C4_truncation_amended_witness :
    intoStream 3 ((([CanAnyFrame.Normal ⟨20, 1, [7, 0, 0, 0, 0, 0, 0, 0]⟩]).map pushBytes).flatten) =
      (([CanAnyFrame.Normal ⟨20, 1, [7, 0, 0, 0, 0, 0, 0, 0]⟩]).map
          (fun f => StreamItem.okFrame (canon f)) ++
        List.replicate (3 - ([CanAnyFrame.Normal ⟨20, 1, [7, 0, 0, 0, 0, 0, 0, 0]⟩]).length)
          .errItem, false) :=
  C4_truncation_amended [CanAnyFrame.Normal ⟨20, 1, [7, 0, 0, 0, 0, 0, 0, 0]⟩] 3
    (by decide) (by decide)

/-- C6 (amended): for a datagram holding at least the two version/opcode
bytes, a mismatch on either yields "no decoder" (never an error),
regardless of the remaining bytes; a full matching 5-byte header yields a
decoder capturing the header sequence number and big-endian frame count.
(A buffer shorter than the bytes `try_read` consumes yields an I/O error
instead.) -/
theorem C6_version_gate_amended :
    (∀ (v op : Nat) (rest : List Nat), v ≠ IMPLEMENTED_VERSION ∨ op ≠ OpCodeData →
      try_read (v :: op :: rest) = .noReader) ∧
    (∀ (sq c1 c2 : Nat) (rest : List Nat),
      try_read (IMPLEMENTED_VERSION :: OpCodeData :: sq :: c1 :: c2 :: rest) =
        .reader sq (c1 * 2 ^ 8 + c2) rest) := by
  constructor
  · intro v op rest h
    unfold try_read
    simp only [readU8]
    rw [if_neg]
    rintro ⟨h1, h2⟩
    rcases h with h | h
    · exact h h1.symm
    · exact h h2.symm
  · intro sq c1 c2 rest
    unfold try_read
    simp only [readU8]
    rw [if_pos ⟨trivial, trivial⟩]
    unfold readExact
    rw [if_pos (by simp)]
    simp only [List.take_succ_cons, List.take_zero, List.drop_succ_cons, List.drop_zero]
    have : ofBe [c1, c2] = c1 * 2 ^ 8 + c2 := by
      simp only [ofBe, List.foldl]
      omega
    rw [this]

/-- Witness for C6 (amended): version byte 9 is ignored whatever follows;
a matching header hands out sequence number 5 and frame count 258. -/
theorem C6_version_gate_amended_witness :
    try_read (9 :: 0 :: [7, 7, 7]) = .noReader ∧
    try_read (IMPLEMENTED_VERSION :: OpCodeData :: 5 :: 1 :: 2 :: [9]) =
      .reader 5 (1 * 2 ^ 8 + 2) [9] :=
  ⟨C6_version_gate_amended.1 9 0 [7, 7, 7] (by decide),
   C6_version_gate_amended.2 5 1 2 [9]⟩

set_option maxRecDepth 10000 in
/-- C7: the udp.rs send loop's budget check uses the predicted
`encoded_size`, which undercounts remote frames, so a finalized batch can
exceed 508 bytes: after 39 valid remote frames asking for 8 bytes each
(tracked size 200), the timer flush finalizes a 512-byte datagram. -/
theorem C7_budget_exceeded :
    wfAny (.Remote remoteProbe8) ∧
    runSendUdp initSendState budgetTrace =
      .ok (initSendState, [List.replicate 39 (.Remote remoteProbe8)]) ∧
    batchTrackedSize (List.replicate 39 (.Remote remoteProbe8)) = 200 ∧
    ((pushAll MessageSerializer.new (List.replicate 39 (.Remote remoteProbe8))).finalize).1.length
      = 512 ∧
    batchByteSize (List.replicate 39 (.Remote remoteProbe8)) = 512 ∧
    UDP_NO_FRAGMENT_MAX_PAYLOAD_SIZE < 512 := by
  refine ⟨by decide, rfl, by decide, rfl, by decide, by decide⟩

end Cannelloni
